import Mathlib

/-!
Verification development for the qa-dashboard aggregation/scoring engine.

Shallow embedding conventions:
* JavaScript numbers are modelled exactly over `ℚ` (decimal literals such as
  `0.7` become `7/10`); binary floating-point rounding is outside the model.
* Timestamps (`created_date`) are modelled as milliseconds since the Unix
  epoch (`Int`), i.e. the absolute instant obtained by parsing the ISO 8601
  string; the runtime is assumed to be in UTC, so `Date.prototype.getDay` is
  day-number-plus-4 modulo 7 and date-only strings parse to midnight.
* A JavaScript value that may be `undefined` is an `Option`; `NaN` produced
  by numeric coercion is `Option.none` in `Option ℚ` positions.
* Fallible computations return `Except`; a thrown `ReferenceError` is
  `Except.error ()`.
-/

namespace QADash

/-- The twelve QA criteria of a ticket interaction (the keys of
`avg_scores` in `src/types`). -/
inductive Criterion where
  | client_alignment
  | consistency
  | empathy
  | enablement
  | grammar_language
  | non_tech_clarity
  | ownership_accountability
  | proactivity
  | professionalism_clarity
  | responsiveness
  | risk_impact
  | tone_and_trust
deriving DecidableEq

/-- CORE_CRITERIA from `DynamoService.calculateEmployeeStats` /
`calculateOverallScore` (mockData.ts lines 349-356, 458-465). -/
def CORE_CRITERIA : List Criterion :=
  [Criterion.tone_and_trust, Criterion.grammar_language,
   Criterion.professionalism_clarity, Criterion.non_tech_clarity,
   Criterion.empathy, Criterion.responsiveness]

/-- CONTEXTUAL_CRITERIA from the same functions (mockData.ts lines 358-365,
467-474). -/
def CONTEXTUAL_CRITERIA : List Criterion :=
  [Criterion.client_alignment, Criterion.proactivity,
   Criterion.ownership_accountability, Criterion.enablement,
   Criterion.consistency, Criterion.risk_impact]

/-- A raw criterion value as it may arrive from the data store: a finite
number, the number NaN, a string (with its `parseFloat` value, `none` when
`parseFloat` yields NaN), `null`, or a missing field (`undefined`). -/
inductive RawScore where
  | num (q : ℚ)
  | nan
  | strv (p : Option ℚ)
  | nullv
  | undef

/-- One entry of a ticket's `response_times` array. `response_by` and
`response_time` may be absent (`undefined`). -/
structure ResponseEntry where
  response_by : Option String
  response_time : Option String
  response_type : String

/-- One ticket interaction record (`TicketData` in `src/types`).
`created_date` is the parsed absolute instant in epoch milliseconds;
`response_times` is `none` when the field is missing or not an array. -/
structure Ticket where
  ticket_id : String
  employee : String
  created_date : Int
  sentiment : String
  scores : Criterion → RawScore
  response_times : Option (List ResponseEntry)

/-! ## Duration Parser (`DynamoService.parseResponseTime`, mockData.ts 301-331) -/

/-- Numeric value of a decimal digit character. -/
def digitVal (c : Char) : Nat := c.toNat - 48

/-- Value of a run of decimal digits, as `parseInt` computes it. -/
def digitsToNat (ds : List Char) : Nat := ds.foldl (fun n c => 10 * n + digitVal c) 0

/-- ASCII lower-casing of one character, as `String.prototype.toLowerCase`
acts on the ASCII range (the only range relevant to duration strings). -/
def jsCharLower (c : Char) : Char :=
  if 65 ≤ c.toNat ∧ c.toNat ≤ 90 then Char.ofNat (c.toNat + 32) else c

/-- Lower-casing of a character list. -/
def jsToLower (l : List Char) : List Char := l.map jsCharLower

/-- Whitespace trimming as `String.prototype.trim`. -/
def jsTrim (l : List Char) : List Char :=
  ((l.dropWhile Char.isWhitespace).reverse.dropWhile Char.isWhitespace).reverse

/-- The `toLowerCase().trim()` normalisation applied by `parseResponseTime`. -/
def normTime (l : List Char) : List Char := jsTrim (jsToLower l)

/-- Leftmost match of the regular expression `(\d+)<tok>`: the first
position whose maximal digit run is immediately followed by `tok`, returning
the `parseInt` value of the captured digits (backtracking inside a digit run
cannot succeed because `tok` is not a digit). -/
def findTok (tok : Char) : List Char → Option Nat
  | [] => none
  | c :: cs =>
    if c.isDigit then
      match (c :: cs).dropWhile Char.isDigit with
      | d :: _ =>
        if d = tok then some (digitsToNat ((c :: cs).takeWhile Char.isDigit))
        else findTok tok cs
      | [] => none
    else findTok tok cs

/-- Leftmost match of `(\d+)`: the first digit run of the string. -/
def firstDigits : List Char → Option Nat
  | [] => none
  | c :: cs =>
    if c.isDigit then some (digitsToNat ((c :: cs).takeWhile Char.isDigit))
    else firstDigits cs

/-- Core of `parseResponseTime` on the normalised character list: hours
token times 60 plus minutes token, falling back to the first digit run when
that total is 0. -/
def parseResponseTimeChars (l : List Char) : Nat :=
  let t := normTime l
  let hours := match findTok 'h' t with
    | some n => n * 60
    | none => 0
  let minutes := match findTok 'm' t with
    | some n => n
    | none => 0
  let totalMinutes := hours + minutes
  if totalMinutes = 0 then
    match firstDigits t with
    | some n => n
    | none => 0
  else totalMinutes

/-- `DynamoService.parseResponseTime`: `none` models a non-string argument
(`undefined`, `null`, a number), and the empty string is falsy; both return
0 before any parsing. Never throws. -/
def parseResponseTime : Option String → Nat
  | none => 0
  | some s => if s = "" then 0 else parseResponseTimeChars s.toList

/-! ## Overall Score Combiner (`DynamoService.calculateOverallScore`,
mockData.ts 457-501) -/

/-- The filter `score => !isNaN(score) && score > 0` applied to a list of JS
numbers (`none` = NaN). -/
def validNums (l : List (Option ℚ)) : List ℚ :=
  l.filterMap (fun o => match o with
    | some q => if 0 < q then some q else none
    | none => none)

/-- Arithmetic mean of a list of rationals, 0 for the empty list (the
`length > 0 ? sum / length : 0` pattern used throughout the source). -/
def meanOr0 (l : List ℚ) : ℚ := if l = [] then 0 else l.sum / (l.length : ℚ)

/-- `DynamoService.calculateOverallScore` on a twelve-field record of JS
numbers: mean of the valid CORE fields (0 if none), mean of the valid
CONTEXTUAL fields, weighted 70/30 when at least one contextual field is
valid, otherwise the core average alone. -/
def calculateOverallScore (avgScores : Criterion → Option ℚ) : ℚ :=
  let coreScores := validNums (CORE_CRITERIA.map avgScores)
  let contextualScores := validNums (CONTEXTUAL_CRITERIA.map avgScores)
  let coreAverage := if 0 < coreScores.length then coreScores.sum / (coreScores.length : ℚ) else 0
  let contextualAverage :=
    if 0 < contextualScores.length then contextualScores.sum / (contextualScores.length : ℚ) else 0
  if 0 < contextualScores.length then coreAverage * (7/10) + contextualAverage * (3/10)
  else coreAverage

/-- A raw ticket field viewed as the JS number the `calculateOverallScore`
filter sees (`none` = NaN): numbers pass through, a parsable string compares
by its numeric value, `null` coerces to 0, `undefined` to NaN. -/
def jsNumOf : RawScore → Option ℚ
  | RawScore.num q => some q
  | RawScore.nan => none
  | RawScore.strv p => p
  | RawScore.nullv => some 0
  | RawScore.undef => none

/-- Overall score of a single interaction, as `WeeklyReport` computes it by
passing the ticket's twelve raw fields to `calculateOverallScore`. -/
def overallScoreOfTicket (t : Ticket) : ℚ :=
  calculateOverallScore (fun c => jsNumOf (t.scores c))

/-! ## Ticket-level SLA scan (`DynamoService.calculateSLAViolations`,
mockData.ts 266-298): no deduplication, no `response_by` presence check. -/

/-- One violation record pushed by `calculateSLAViolations`. `employee` is
the raw `response_by` value, which may be `undefined`. -/
structure SLAViolationRec where
  ticket_id : String
  employee : Option String
  violation_type : String
  actual_time : Nat
  sla_limit : Nat
  created_date : Int

/-- Violation records produced from a single ticket: "Employee to Client"
responses whose parsed response time exceeds 30 minutes. -/
def slaOfTicket (t : Ticket) : List SLAViolationRec :=
  match t.response_times with
  | none => []
  | some rts =>
    (rts.filter (fun r => r.response_type = "Employee to Client")).filterMap (fun r =>
      let responseTime := parseResponseTime r.response_time
      if 30 < responseTime then
        some { ticket_id := t.ticket_id, employee := r.response_by,
               violation_type := "initial_response", actual_time := responseTime,
               sla_limit := 30, created_date := t.created_date }
      else none)

/-- `DynamoService.calculateSLAViolations`: the `forEach`/`push` loop over
the ticket list, i.e. the concatenation of the per-ticket records. -/
def calculateSLAViolations (tickets : List Ticket) : List SLAViolationRec :=
  tickets.flatMap slaOfTicket

/-! ## Score Aggregator (`DynamoService.calculateEmployeeStats`,
mockData.ts 345-454) -/

/-- The coercion `typeof rawValue === 'number' ? rawValue :
parseFloat(rawValue as string) || 0` producing the JS number `newValue`
(`none` = NaN, which only a NaN number input can produce because the
`|| 0` turns a failed `parseFloat` into 0). -/
def coerceScore : RawScore → Option ℚ
  | RawScore.num q => some q
  | RawScore.nan => none
  | RawScore.strv p => some (p.getD 0)
  | RawScore.nullv => some 0
  | RawScore.undef => some 0

/-- Per-criterion accumulator: the `_count` and `_sum` temporary fields and
the published running average. -/
structure CritAcc where
  cnt : Nat
  sum : ℚ
  avg : ℚ

/-- Initial per-criterion accumulator (`avg_scores` starts at 0, the
temporaries at 0). -/
def critInit : CritAcc := { cnt := 0, sum := 0, avg := 0 }

/-- One interaction's update of a criterion accumulator: only a valid score
(`!isNaN(newValue) && newValue > 0`) bumps count and sum and republishes
`sum / count`. -/
def critStep (a : CritAcc) (r : RawScore) : CritAcc :=
  match coerceScore r with
  | none => a
  | some q =>
    if 0 < q then
      { cnt := a.cnt + 1, sum := a.sum + q, avg := (a.sum + q) / ((a.cnt + 1 : Nat) : ℚ) }
    else a

/-- Counts of the four sentiment labels. -/
structure SentimentDist where
  positive : Nat
  negative : Nat
  neutral : Nat
  mixed : Nat

/-- The all-zero sentiment distribution. -/
def sentInit : SentimentDist := { positive := 0, negative := 0, neutral := 0, mixed := 0 }

/-- Sentiment tally step: lower-case the label and bump the matching bucket,
silently dropping anything else. -/
def sentStep (s : SentimentDist) (raw : String) : SentimentDist :=
  let l := String.mk (jsToLower raw.toList)
  if l = "positive" then { s with positive := s.positive + 1 }
  else if l = "negative" then { s with negative := s.negative + 1 }
  else if l = "neutral" then { s with neutral := s.neutral + 1 }
  else if l = "mixed" then { s with mixed := s.mixed + 1 }
  else s

/-- Per-employee accumulator (`EmployeeStats` plus the temporary counting
fields; the `_count`/`_sum` cleanup at the end of `calculateEmployeeStats`
corresponds to publishing only the `avg` component of each `CritAcc`). -/
structure EmpAcc where
  total_tickets : Nat
  scores : Criterion → CritAcc
  sentiment_distribution : SentimentDist
  sla_violations : Nat

/-- The freshly initialised per-employee record. -/
def empInit : EmpAcc :=
  { total_tickets := 0, scores := fun _ => critInit,
    sentiment_distribution := sentInit, sla_violations := 0 }

/-- Folding one interaction into an employee's record: bump
`total_tickets`, update every criterion's running average, tally the
sentiment. -/
def empStep (a : EmpAcc) (t : Ticket) : EmpAcc :=
  { total_tickets := a.total_tickets + 1,
    scores := fun c => critStep (a.scores c) (t.scores c),
    sentiment_distribution := sentStep a.sentiment_distribution t.sentiment,
    sla_violations := a.sla_violations }

/-- First-match lookup in an insertion-ordered association list (the
`stats` object keyed by employee name). -/
def lookupA {α : Type} : List (String × α) → String → Option α
  | [], _ => none
  | (k, v) :: rest, e => if k = e then some v else lookupA rest e

/-- Update the value stored under a key, leaving other entries unchanged. -/
def updateA {α : Type} (st : List (String × α)) (k : String) (f : α → α) : List (String × α) :=
  st.map (fun p => if p.1 = k then (p.1, f p.2) else p)

/-- Folding one ticket into the `stats` object: create the entry on first
sight of the employee, then apply `empStep`. -/
def stepStats (st : List (String × EmpAcc)) (t : Ticket) : List (String × EmpAcc) :=
  match lookupA st t.employee with
  | some _ => updateA st t.employee (fun a => empStep a t)
  | none => st ++ [(t.employee, empStep empInit t)]

/-- JS property-key coercion of `violation.employee`: an `undefined`
response author indexes the stats object under the string "undefined". -/
def jsKeyOf : Option String → String
  | some s => s
  | none => "undefined"

/-- The `violations.forEach` pass: bump `sla_violations` of the matching
stats entry, skipping violations whose key has no entry. -/
def bumpViolation (st : List (String × EmpAcc)) (v : SLAViolationRec) : List (String × EmpAcc) :=
  match lookupA st (jsKeyOf v.employee) with
  | some _ =>
    updateA st (jsKeyOf v.employee) (fun a => { a with sla_violations := a.sla_violations + 1 })
  | none => st

/-- `DynamoService.calculateEmployeeStats`: filter to the allow-list, fold
the interactions in arrival order, then fold in the SLA violations computed
over the same filtered list. The result keeps insertion order, as
`Object.values` does. -/
def calculateEmployeeStats (tickets : List Ticket) (allowedEmployees : List String) :
    List (String × EmpAcc) :=
  let filteredTickets := tickets.filter (fun t => allowedEmployees.contains t.employee)
  let base := filteredTickets.foldl stepStats []
  (calculateSLAViolations filteredTickets).foldl bumpViolation base

/-- The stats entry of one employee after a full aggregation pass. -/
def statsFor (tickets : List Ticket) (allowed : List String) (e : String) : Option EmpAcc :=
  lookupA (calculateEmployeeStats tickets allowed) e

/-- Published `avg_scores` value of one criterion for one employee (0 when
the employee has no entry). -/
def avgScoreOf (tickets : List Ticket) (allowed : List String) (e : String) (c : Criterion) : ℚ :=
  match statsFor tickets allowed e with
  | some a => (a.scores c).avg
  | none => 0

/-- Published `sla_violations` count for one employee (0 when absent). -/
def slaCountOf (tickets : List Ticket) (allowed : List String) (e : String) : Nat :=
  match statsFor tickets allowed e with
  | some a => a.sla_violations
  | none => 0

/-! ## Spec-side derived notions for the aggregator claims -/

/-- The retained interactions of employee `e`: the allow-list filter
followed by selection of that employee's interactions. -/
def ticketsOf (tickets : List Ticket) (allowed : List String) (e : String) : List Ticket :=
  (tickets.filter (fun t => allowed.contains t.employee)).filter
    (fun t => decide (t.employee = e))

/-- The valid observations of a criterion over a list of interactions: the
coerced values that are numeric and strictly positive, in order. -/
def validObs (ts : List Ticket) (c : Criterion) : List ℚ :=
  ts.filterMap (fun t =>
    match coerceScore (t.scores c) with
    | some q => if 0 < q then some q else none
    | none => none)

/-! ## Deduplicating SLA evaluator (`SLAMonitoring.allInteractions` in
TicketStatistics.tsx 118-170 and the identical `slaCalculation` block of
`WeeklyReport.weeklyData`, WeeklyReport.tsx 104-150). This is the canonical
SLA Evaluator of spec section 4.2 (the design notes designate the
deduplicating, field-checking variant as authoritative). -/

/-- One SLA interaction event. The source also carries `response_type` and
`created_date` (used only for display sorting, which preserves counts). -/
structure SLAEvent where
  ticket_id : String
  employee : String
  response_time : Nat
  is_viol : Bool
  sla_limit : Nat

/-- State of the dedup scan: the `processedInteractions` set (insertion
order kept, only membership matters) and the accumulated events. -/
structure SLAState where
  seen : List String
  events : List SLAEvent

/-- The template-literal dedup key
`ticket_id + "-" + response_by + "-" + response_time`. -/
def interactionKey (tid rb rt : String) : String := tid ++ "-" ++ rb ++ "-" ++ rt

/-- Qualification of a response entry: `response_type` must equal
"Employee to Client" and both `response_by` and `response_time` must be
present and truthy (the empty string is falsy in JS). Returns the author
and raw time of a qualifying entry. -/
def respQual (r : ResponseEntry) : Option (String × String) :=
  if r.response_type = "Employee to Client" then
    match r.response_by, r.response_time with
    | some rb, some rt => if rb = "" ∨ rt = "" then none else some (rb, rt)
    | _, _ => none
  else none

/-- Processing one response entry: skip non-qualifying entries, skip keys
already seen, otherwise record the key and push the event. -/
def procResp (tid : String) (st : SLAState) (r : ResponseEntry) : SLAState :=
  match respQual r with
  | none => st
  | some (rb, rt) =>
    let key := interactionKey tid rb rt
    if st.seen.contains key then st
    else
      { seen := st.seen ++ [key],
        events := st.events ++
          [{ ticket_id := tid, employee := rb,
             response_time := parseResponseTime (some rt),
             is_viol := decide (30 < parseResponseTime (some rt)), sla_limit := 30 }] }

/-- Processing one ticket: skip tickets without a `response_times` array,
otherwise fold its entries. -/
def procTicket (st : SLAState) (t : Ticket) : SLAState :=
  match t.response_times with
  | none => st
  | some rts => rts.foldl (procResp t.ticket_id) st

/-- Full dedup scan over an interaction list, starting from the empty
`Set`. -/
def slaScan (tickets : List Ticket) : SLAState :=
  tickets.foldl procTicket { seen := [], events := [] }

/-- The deduplicated SLA event list of an interaction list. -/
def slaEvents (tickets : List Ticket) : List SLAEvent := (slaScan tickets).events

/-- The violation count reported by the deduplicating evaluator. -/
def slaViolationCount (tickets : List Ticket) : Nat :=
  ((slaEvents tickets).filter (fun e => e.is_viol)).length

/-! ## Weekly/Window Rollup (`WeeklyReport.weeklyData`, WeeklyReport.tsx
74-314). `selectedWeek` is a Sunday-aligned date-only key produced by
`availableWeeks`, parsed to midnight UTC; `weekEnd` is obtained by
`setDate(getDate() + 6)`, i.e. the instant six whole days after
`weekStart`, still at 00:00:00. -/

/-- Milliseconds per calendar day. -/
def msPerDay : Int := 86400000

/-- The `weekEnd` instant: `weekStart` plus six days, at midnight. -/
def weekEndOf (w : Int) : Int := w + 6 * msPerDay

/-- Bucket membership test `ticketDate >= weekStart && ticketDate <=
weekEnd`, on absolute instants. -/
def inWeek (w t : Int) : Bool := decide (w ≤ t) && decide (t ≤ weekEndOf w)

/-- The interactions of the selected week (`weekTickets`). -/
def weekTickets (tickets : List Ticket) (w : Int) : List Ticket :=
  tickets.filter (fun t => inWeek w t.created_date)

/-- The day index of an instant (floor of ms over ms-per-day; `Int`
division is floor division for a positive divisor). -/
def jsDayNumber (ms : Int) : Int := ms / msPerDay

/-- `Date.prototype.getDay` in a UTC runtime: the epoch (1970-01-01) was a
Thursday, hence the offset 4; `Int.emod` is non-negative, like the JS
weekday. -/
def jsGetDay (ms : Int) : Int := (jsDayNumber ms + 4) % 7

/-- The interactions the daily loop appends to `dailyData[d]`: bucket
members whose `getDay()` equals `d` (the `dayOfWeek >= 0 && dayOfWeek <= 6`
guard in the source is always true because `getDay` ranges over 0..6). -/
def slotTickets (wts : List Ticket) (d : Int) : List Ticket :=
  wts.filter (fun t => decide (jsGetDay t.created_date = d))

/-- Daily unique-ticket count: the size of the `Set` of ticket ids
collected in slot `d`. -/
def dailyTicketCount (wts : List Ticket) (d : Int) : Nat :=
  ((slotTickets wts d).map (fun t => t.ticket_id)).dedup.length

/-- Daily average score: the mean of the strictly positive per-interaction
overall scores of slot `d`, 0 when there are none. -/
def dailyScoreAvg (wts : List Ticket) (d : Int) : ℚ :=
  meanOr0 (((slotTickets wts d).map overallScoreOfTicket).filter (fun q => decide (0 < q)))

/-- Weekly average score: mean of the positive per-interaction overall
scores of the bucket (the `avgScore` IIFE). -/
def weeklyAvgScore (wts : List Ticket) : ℚ :=
  meanOr0 ((wts.map overallScoreOfTicket).filter (fun q => decide (0 < q)))

/-- Sentiment distribution of the bucket (the `sentimentDistribution`
reduce, with the same lower-case-and-match rule as the aggregator). -/
def sentimentFold (wts : List Ticket) : SentimentDist :=
  wts.foldl (fun s t => sentStep s t.sentiment) sentInit

/-- Per-employee weekly accumulator (`weekEmployeeStats` values). -/
structure WkAcc where
  tickets : Nat
  totalScore : ℚ
  scores : List ℚ

/-- Folding one bucket interaction into `weekEmployeeStats`: the entry is
created unconditionally, but only interactions with a positive overall
score update it. -/
def wkStep (st : List (String × WkAcc)) (t : Ticket) : List (String × WkAcc) :=
  let st1 := match lookupA st t.employee with
    | some _ => st
    | none => st ++ [(t.employee, { tickets := 0, totalScore := 0, scores := [] })]
  let score := overallScoreOfTicket t
  if 0 < score then
    updateA st1 t.employee (fun a =>
      { tickets := a.tickets + 1, totalScore := a.totalScore + score,
        scores := a.scores ++ [score] })
  else st1

/-- The `weekEmployeeStats` record of the bucket. -/
def weekEmployeeStats (wts : List Ticket) : List (String × WkAcc) :=
  wts.foldl wkStep []

/-- The `topPerformers` list: per-employee mean score and ticket count,
employees with non-positive means excluded, sorted descending (stably, as
the engine's sort is) and truncated to five. -/
def topPerformersOf (wts : List Ticket) : List (String × ℚ × Nat) :=
  (((weekEmployeeStats wts).map (fun p =>
      (p.1, (if 0 < p.2.scores.length then p.2.totalScore / (p.2.scores.length : ℚ) else 0),
       p.2.tickets))).filter
    (fun x => decide (0 < x.2.1))).mergeSort (fun a b => decide (b.2.1 ≤ a.2.1)) |>.take 5

/-- One row of the per-employee weekly detail table. The source never
succeeds in building these rows (see `employeeDetailsRes`). -/
structure EmployeeDetail where
  employee : String
  totalInteractions : Nat
  uniqueTickets : Nat
  avgScore : ℚ
  ticketIds : List String
  sentimentDistribution : SentimentDist
  slaViolations : Nat

/-- The `employeeDetails` computation of `WeeklyReport.weeklyData`
(WeeklyReport.tsx 221-249). Its body reads the identifier
`allInteractions`, which is not defined anywhere in WeeklyReport.tsx, so
evaluating the map callback throws a ReferenceError; the map callback runs
exactly when `weekEmployeeStats` has at least one entry. -/
def employeeDetailsRes (wts : List Ticket) : Except Unit (List EmployeeDetail) :=
  match weekEmployeeStats wts with
  | [] => Except.ok []
  | _ :: _ => Except.error ()

/-- The weekly bucket record (`WeeklyData` minus the locale-formatted
display strings; the week boundaries are kept as instants). -/
structure WeeklyData where
  weekStartMs : Int
  weekEndMs : Int
  totalTickets : Nat
  uniqueTickets : Nat
  avgScore : ℚ
  slaViolations : Nat
  sentimentDistribution : SentimentDist
  topPerformers : List (String × ℚ × Nat)
  employeeDetails : List EmployeeDetail
  dailyTickets : List Nat
  dailyScores : List ℚ

/-- The all-zero bucket returned for a week with no interactions
(WeeklyReport.tsx 87-101). -/
def zeroWeeklyData (w : Int) : WeeklyData :=
  { weekStartMs := w, weekEndMs := weekEndOf w, totalTickets := 0, uniqueTickets := 0,
    avgScore := 0, slaViolations := 0, sentimentDistribution := sentInit,
    topPerformers := [], employeeDetails := [],
    dailyTickets := [0, 0, 0, 0, 0, 0, 0], dailyScores := [0, 0, 0, 0, 0, 0, 0] }

/-- `WeeklyReport.weeklyData` for a selected week start `w`: the all-zero
bucket when the week filter retains nothing, otherwise the assembled bucket
- except that building `employeeDetails` throws (see
`employeeDetailsRes`), which the embedding propagates as `Except.error`. -/
def weeklyData (tickets : List Ticket) (w : Int) : Except Unit WeeklyData :=
  let wts := weekTickets tickets w
  if wts.isEmpty then Except.ok (zeroWeeklyData w)
  else
    match employeeDetailsRes wts with
    | Except.error e => Except.error e
    | Except.ok ds =>
      Except.ok
        { weekStartMs := w, weekEndMs := weekEndOf w, totalTickets := wts.length,
          uniqueTickets := (wts.map (fun t => t.ticket_id)).dedup.length,
          avgScore := weeklyAvgScore wts, slaViolations := slaViolationCount wts,
          sentimentDistribution := sentimentFold wts, topPerformers := topPerformersOf wts,
          employeeDetails := ds,
          dailyTickets := (List.range 7).map (fun d => dailyTicketCount wts (d : Int)),
          dailyScores := (List.range 7).map (fun d => dailyScoreAvg wts (d : Int)) }

/-! ## Spec-side definitions used to state the claims -/

/-- Valid values of a list of raw scores, through the aggregator's
coercion. -/
def validVals (rs : List RawScore) : List ℚ :=
  rs.filterMap (fun r =>
    match coerceScore r with
    | some q => if 0 < q then some q else none
    | none => none)

/-- Claim-side core average: mean of the valid CORE fields, 0 when none
qualify. -/
def specCoreAvg (f : Criterion → Option ℚ) : ℚ := meanOr0 (validNums (CORE_CRITERIA.map f))

/-- Claim-side contextual average: mean of the valid CONTEXTUAL fields. -/
def specContextualAvg (f : Criterion → Option ℚ) : ℚ :=
  meanOr0 (validNums (CONTEXTUAL_CRITERIA.map f))

/-- The duration-parser semantics claimed by the spec: hours token times 60
plus minutes token, with the digits fallback only when NEITHER token
matches. -/
def specParseClaimed : Option String → Nat
  | none => 0
  | some s =>
    let t := normTime s.toList
    match findTok 'h' t, findTok 'm' t with
    | none, none =>
      match firstDigits t with
      | some n => n
      | none => 0
    | hm, mm => hm.getD 0 * 60 + mm.getD 0

/-- The amended duration-parser semantics: hours token times 60 plus
minutes token, with the digits fallback whenever that total is 0 (in
particular when neither token matches, but also when a token matches with
value 0); 0 for a non-string or empty input. -/
def specParseAmended : Option String → Nat
  | none => 0
  | some s =>
    let t := normTime s.toList
    let total := (findTok 'h' t).getD 0 * 60 + (findTok 'm' t).getD 0
    if total = 0 then (firstDigits t).getD 0 else total

/-! ## Concrete sample data for witnesses and counterexamples -/

/-- A score record with every criterion set to the number `q`. -/
def scoresAll (q : ℚ) : Criterion → RawScore := fun _ => RawScore.num q

/-- A score record with `tone_and_trust` set to `q` and every other
criterion set to 5. -/
def scoresTone (q : ℚ) : Criterion → RawScore := fun c =>
  match c with
  | Criterion.tone_and_trust => RawScore.num q
  | _ => RawScore.num 5

/-- Sample allow-list (two names from `ALLOWED_EMPLOYEES`). -/
def exAllowed : List String := ["Nithin V P", "Sajni V"]

/-- Interaction with a zero `tone_and_trust` score. -/
def tkTone0 : Ticket :=
  { ticket_id := "TKT-1", employee := "Nithin V P", created_date := 0,
    sentiment := "positive", scores := scoresTone 0, response_times := none }

/-- Interaction with `tone_and_trust` scored 8. -/
def tkTone8 : Ticket :=
  { ticket_id := "TKT-2", employee := "Nithin V P", created_date := 0,
    sentiment := "positive", scores := scoresTone 8, response_times := none }

/-- A violating "Employee to Client" response authored by Nithin V P. -/
def respCross : ResponseEntry :=
  { response_by := some "Nithin V P", response_time := some "45m",
    response_type := "Employee to Client" }

/-- A response entry with no author (`response_by` undefined). -/
def respNoBy : ResponseEntry :=
  { response_by := none, response_time := some "99h",
    response_type := "Employee to Client" }

/-- Sajni's ticket carrying Nithin's violating response (a multi-employee
ticket). -/
def tkCross : Ticket :=
  { ticket_id := "TKT-A", employee := "Sajni V", created_date := 0,
    sentiment := "neutral", scores := scoresAll 8, response_times := some [respCross] }

/-- Nithin's own ticket with no responses. -/
def tkOwn : Ticket :=
  { ticket_id := "TKT-B", employee := "Nithin V P", created_date := 0,
    sentiment := "positive", scores := scoresTone 8, response_times := none }

/-- Nithin's own ticket carrying his own violating response. -/
def tkSelf : Ticket :=
  { ticket_id := "TKT-C", employee := "Nithin V P", created_date := 0,
    sentiment := "positive", scores := scoresAll 8, response_times := some [respCross] }

/-- 1970-01-04T00:00:00Z, a Sunday midnight: a valid `selectedWeek`
instant. -/
def wSun : Int := 259200000

/-- An interaction on the Monday of that week, 10:00 UTC. -/
def tkMon : Ticket :=
  { ticket_id := "TKT-D", employee := "Nithin V P", created_date := 381600000,
    sentiment := "positive", scores := scoresAll 8, response_times := none }

/-- Twelve-field record with all core fields 8 and all contextual fields
6. -/
def ex86 : Criterion → Option ℚ := fun c =>
  match c with
  | Criterion.client_alignment => some 6
  | Criterion.consistency => some 6
  | Criterion.empathy => some 8
  | Criterion.enablement => some 6
  | Criterion.grammar_language => some 8
  | Criterion.non_tech_clarity => some 8
  | Criterion.ownership_accountability => some 6
  | Criterion.proactivity => some 6
  | Criterion.professionalism_clarity => some 8
  | Criterion.responsiveness => some 8
  | Criterion.risk_impact => some 6
  | Criterion.tone_and_trust => some 8

/-- Twelve-field record with all core fields 8 and all contextual fields
0. -/
def exCtx0 : Criterion → Option ℚ := fun c =>
  match c with
  | Criterion.client_alignment => some 0
  | Criterion.consistency => some 0
  | Criterion.empathy => some 8
  | Criterion.enablement => some 0
  | Criterion.grammar_language => some 8
  | Criterion.non_tech_clarity => some 8
  | Criterion.ownership_accountability => some 0
  | Criterion.proactivity => some 0
  | Criterion.professionalism_clarity => some 8
  | Criterion.responsiveness => some 8
  | Criterion.risk_impact => some 0
  | Criterion.tone_and_trust => some 8

/-- Qualifying dedup keys of a response list for a given ticket id: the
keys of its entries that pass `respQual`. -/
def qualKeysOf (tid : String) (rts : List ResponseEntry) : List String :=
  rts.filterMap (fun r => (respQual r).map (fun p => interactionKey tid p.1 p.2))

/-- Qualifying dedup keys of a ticket. -/
def ticketQualKeys (t : Ticket) : List String :=
  match t.response_times with
  | none => []
  | some rts => qualKeysOf t.ticket_id rts

/-! # Theorems -/

/-! ## Duration parser: claim C4 -/

/-- Helper: the parser equals the amended token semantics (hours token
times 60 plus minutes token, digit-run fallback whenever that total is
zero). -/
theorem parseResponseTime_eq_amended (os : Option String) :
    parseResponseTime os = specParseAmended os := by
  cases os with
  | none => rfl
  | some s =>
    by_cases hs : s = ""
    · subst hs; rfl
    · simp only [parseResponseTime, hs, if_false, parseResponseTimeChars, specParseAmended]
      cases h1 : findTok 'h' (normTime s.toList) <;>
        cases h2 : findTok 'm' (normTime s.toList) <;>
          cases h3 : firstDigits (normTime s.toList) <;>
            simp [h1, h2, h3]

/-- Claim C4 (counterexample): on the input "7 0h" the code returns 7 (the
`h` token matches with value 0, so the token total is 0 and the fallback
reads the leading digit run), while the claimed semantics - fallback only
when neither token matches - returns 0. Hence the claim's universal clause
is false at this input. -/
theorem claim4_counterexample :
    parseResponseTime (some "7 0h") = 7 ∧ specParseClaimed (some "7 0h") = 0 := by
  constructor
  · decide
  · decide

/-- Claim C4 (amended): all six quoted examples hold, a non-string input
yields 0, and for every input string the parser computes the first `h`
token times 60 plus the first `m` token, falling back to the first digit
run interpreted as minutes whenever that total is 0 (not only when neither
token matches). -/
theorem claim4_parse_response_time :
    parseResponseTime (some "20h 33m") = 1233 ∧
    parseResponseTime (some "45m") = 45 ∧
    parseResponseTime (some "2h") = 120 ∧
    parseResponseTime (some "") = 0 ∧
    parseResponseTime (some "garbage") = 0 ∧
    parseResponseTime (some "90") = 90 ∧
    parseResponseTime none = 0 ∧
    (∀ os, parseResponseTime os = specParseAmended os) := by
  refine ⟨by decide, by decide, by decide, by decide, by decide, by decide, rfl, ?_⟩
  exact parseResponseTime_eq_amended

/-! ## Weekly bucket membership: claim C5 -/

/-- Claim C5 (counterexample): for the Sunday week start 1970-01-04T00:00Z,
the instant `weekEnd` day 23:59:59 (six days later at 23:59:59) is NOT a
member of the bucket, while the claim asserts it is; the `weekStart` 00:00
boundary is a member. -/
theorem claim5_counterexample :
    inWeek 259200000 (259200000 + 6 * msPerDay + 86399000) = false ∧
    inWeek 259200000 259200000 = true := by
  constructor
  · decide
  · decide

/-- Claim C5 (amended): membership is `weekStart <= created_date <=
weekStart + 6 days` on absolute instants. Both instants `weekStart` 00:00
and `weekStart + 6 days` 00:00 (the code's `weekEnd`) are included, but the
last day's 23:59:59 lies strictly beyond `weekEnd` and is excluded. -/
theorem claim5_week_membership :
    (∀ w t, inWeek w t = true ↔ (w ≤ t ∧ t ≤ w + 6 * msPerDay)) ∧
    (∀ w, inWeek w w = true) ∧
    (∀ w, inWeek w (w + 6 * msPerDay) = true) ∧
    (∀ w, inWeek w (w + 6 * msPerDay + 86399000) = false) := by
  refine ⟨?_, ?_, ?_, ?_⟩
  · intro w t
    simp [inWeek, weekEndOf, msPerDay]
  · intro w
    simp [inWeek, weekEndOf, msPerDay]
  · intro w
    simp [inWeek, weekEndOf, msPerDay]
  · intro w
    simp [inWeek, weekEndOf, msPerDay]

/-! ## Overall Score Combiner: claim C2 -/

/-- Claim C2: for every twelve-field score record, the combiner returns
`0.7 * core_avg + 0.3 * contextual_avg` when at least one contextual field
is valid and exactly `core_avg` otherwise, where each tier average is the
mean of that tier's fields that are not NaN and strictly positive (0 when
none); the all-8-core/all-6-contextual record scores 7.4 = 37/5, and an
all-core-8 record with all contextual fields 0 scores exactly its core
average. -/
theorem claim2_overall_score :
    (∀ f : Criterion → Option ℚ,
      (validNums (CONTEXTUAL_CRITERIA.map f) ≠ [] →
        calculateOverallScore f = 7/10 * specCoreAvg f + 3/10 * specContextualAvg f) ∧
      (validNums (CONTEXTUAL_CRITERIA.map f) = [] →
        calculateOverallScore f = specCoreAvg f)) ∧
    calculateOverallScore ex86 = 37/5 ∧
    calculateOverallScore exCtx0 = specCoreAvg exCtx0 := by
  refine ⟨?_, ?_, ?_⟩
  · intro f
    constructor
    · intro hne
      have hlen : 0 < (validNums (CONTEXTUAL_CRITERIA.map f)).length := List.length_pos.mpr hne
      simp only [calculateOverallScore, specCoreAvg, specContextualAvg, meanOr0, hlen, if_true]
      rcases eq_or_ne (validNums (CORE_CRITERIA.map f)) [] with hc | hc
      · simp [hc, hne]
        ring
      · have hcl : 0 < (validNums (CORE_CRITERIA.map f)).length := List.length_pos.mpr hc
        simp [hcl, hc, hne]
        ring
    · intro he
      simp only [calculateOverallScore, specCoreAvg, meanOr0, he]
      rcases eq_or_ne (validNums (CORE_CRITERIA.map f)) [] with hc | hc
      · simp [hc]
      · have hcl : 0 < (validNums (CORE_CRITERIA.map f)).length := List.length_pos.mpr hc
        simp [hcl, hc]
  · norm_num [calculateOverallScore, ex86, CORE_CRITERIA, CONTEXTUAL_CRITERIA, validNums,
      List.filterMap_cons, List.filterMap_nil]
  · norm_num [calculateOverallScore, specCoreAvg, meanOr0, exCtx0, CORE_CRITERIA,
      CONTEXTUAL_CRITERIA, validNums, List.filterMap_cons, List.filterMap_nil]
    simp

/-- Witness for claim C2: the all-8-core/all-6-contextual record has a
valid contextual field, and the theorem instantiates to the 70/30 weighted
form there. -/
theorem claim2_overall_score_witness :
    validNums (CONTEXTUAL_CRITERIA.map ex86) ≠ [] ∧
    calculateOverallScore ex86 = 7/10 * specCoreAvg ex86 + 3/10 * specContextualAvg ex86 := by
  have hne : validNums (CONTEXTUAL_CRITERIA.map ex86) ≠ [] := by
    norm_num [ex86, CONTEXTUAL_CRITERIA, validNums, List.filterMap_cons, List.filterMap_nil]
    simp
  exact ⟨hne, (claim2_overall_score.1 ex86).1 hne⟩

/-! ## Deduplicating SLA evaluator: claims C3 and C9 -/

theorem qualKeysOf_cons (tid : String) (r : ResponseEntry) (rest : List ResponseEntry) :
    qualKeysOf tid (r :: rest) =
      match respQual r with
      | some p => interactionKey tid p.1 p.2 :: qualKeysOf tid rest
      | none => qualKeysOf tid rest := by
  simp only [qualKeysOf, List.filterMap_cons]
  cases respQual r <;> simp

theorem seen_mono_resp {k : String} {st : SLAState} (tid : String) (r : ResponseEntry)
    (h : k ∈ st.seen) : k ∈ (procResp tid st r).seen := by
  simp only [procResp]
  cases hq : respQual r with
  | none => exact h
  | some p =>
    by_cases hc : interactionKey tid p.1 p.2 ∈ st.seen
    · simp [hc, h]
    · simp [hc]
      exact Or.inl h

theorem seen_mono_respFold {k : String} (tid : String) (rts : List ResponseEntry) :
    ∀ st : SLAState, k ∈ st.seen → k ∈ (rts.foldl (procResp tid) st).seen := by
  induction rts with
  | nil => intro st h; exact h
  | cons r rest ih =>
    intro st h
    exact ih (procResp tid st r) (seen_mono_resp tid r h)

theorem seen_mono_ticket {k : String} (t : Ticket) (st : SLAState)
    (h : k ∈ st.seen) : k ∈ (procTicket st t).seen := by
  simp only [procTicket]
  cases t.response_times with
  | none => exact h
  | some rts => exact seen_mono_respFold t.ticket_id rts st h

theorem seen_mono_fold {k : String} (tickets : List Ticket) :
    ∀ st : SLAState, k ∈ st.seen → k ∈ (tickets.foldl procTicket st).seen := by
  induction tickets with
  | nil => intro st h; exact h
  | cons t rest ih =>
    intro st h
    exact ih (procTicket st t) (seen_mono_ticket t st h)

theorem qualKeys_in_seen (tid : String) (rts : List ResponseEntry) :
    ∀ st : SLAState, ∀ k ∈ qualKeysOf tid rts, k ∈ (rts.foldl (procResp tid) st).seen := by
  induction rts with
  | nil => intro st k hk; simp [qualKeysOf] at hk
  | cons r rest ih =>
    intro st k hk
    rw [qualKeysOf_cons] at hk
    cases hq : respQual r with
    | none =>
      rw [hq] at hk
      exact ih (procResp tid st r) k hk
    | some p =>
      rw [hq] at hk
      rcases List.mem_cons.mp hk with hk1 | hk2
      · subst hk1
        rw [List.foldl_cons]
        apply seen_mono_respFold
        simp only [procResp, hq]
        split
        next hcond => exact List.mem_of_elem_eq_true hcond
        next hcond => simp
      · exact ih (procResp tid st r) k hk2

theorem procResp_skip (tid : String) (st : SLAState) (r : ResponseEntry)
    (h : ∀ p, respQual r = some p → interactionKey tid p.1 p.2 ∈ st.seen) :
    procResp tid st r = st := by
  simp only [procResp]
  cases hq : respQual r with
  | none => rfl
  | some p => simp [h p hq]

theorem respFold_skip (tid : String) (rts : List ResponseEntry) :
    ∀ st : SLAState, (∀ k ∈ qualKeysOf tid rts, k ∈ st.seen) →
      rts.foldl (procResp tid) st = st := by
  induction rts with
  | nil => intro st _; rfl
  | cons r rest ih =>
    intro st h
    have hsub : ∀ k ∈ qualKeysOf tid rest, k ∈ st.seen := by
      intro k hk
      apply h
      rw [qualKeysOf_cons]
      cases respQual r
      · exact hk
      · exact List.mem_cons_of_mem _ hk
    have h1 : procResp tid st r = st := by
      apply procResp_skip
      intro p hp
      apply h
      rw [qualKeysOf_cons, hp]
      exact List.mem_cons_self _ _
    rw [List.foldl_cons, h1]
    exact ih st hsub

theorem procTicket_skip (t : Ticket) (st : SLAState)
    (h : ∀ k ∈ ticketQualKeys t, k ∈ st.seen) : procTicket st t = st := by
  have hq : ∀ rts, t.response_times = some rts →
      ∀ k ∈ qualKeysOf t.ticket_id rts, k ∈ st.seen := by
    intro rts hrts k hk
    apply h
    unfold ticketQualKeys
    rw [hrts]
    exact hk
  simp only [procTicket]
  cases ht : t.response_times with
  | none => rfl
  | some rts => exact respFold_skip t.ticket_id rts st (hq rts ht)

theorem procTicket_keys (t : Ticket) (st : SLAState) :
    ∀ k ∈ ticketQualKeys t, k ∈ (procTicket st t).seen := by
  intro k hk
  unfold ticketQualKeys at hk
  simp only [procTicket]
  cases ht : t.response_times with
  | none => rw [ht] at hk; cases hk
  | some rts =>
    rw [ht] at hk
    exact qualKeys_in_seen t.ticket_id rts st k hk

theorem foldTickets_keys (tickets : List Ticket) (T : Ticket) (hT : T ∈ tickets) :
    ∀ st : SLAState, ∀ k ∈ ticketQualKeys T, k ∈ (tickets.foldl procTicket st).seen := by
  induction tickets with
  | nil => cases hT
  | cons t rest ih =>
    intro st k hk
    rcases List.mem_cons.mp hT with h1 | h2
    · subst h1
      rw [List.foldl_cons]
      exact seen_mono_fold rest (procTicket st T) (procTicket_keys T st k hk)
    · exact ih h2 (procTicket st t) k hk

theorem slaScan_append_self (tickets : List Ticket) (T : Ticket) (hT : T ∈ tickets) :
    slaScan (tickets ++ [T]) = slaScan tickets := by
  unfold slaScan
  rw [List.foldl_append]
  simp only [List.foldl_cons, List.foldl_nil]
  apply procTicket_skip
  intro k hk
  exact foldTickets_keys tickets T hT _ k hk

theorem procTicket_dup_resp (t : Ticket) (rts : List ResponseEntry) (r : ResponseEntry)
    (hr : r ∈ rts) (st : SLAState) :
    procTicket st { t with response_times := some (rts ++ [r]) } =
      procTicket st { t with response_times := some rts } := by
  simp only [procTicket]
  rw [List.foldl_append]
  simp only [List.foldl_cons, List.foldl_nil]
  apply procResp_skip
  intro p hp
  apply qualKeys_in_seen
  simp only [qualKeysOf, List.mem_filterMap]
  refine ⟨r, hr, ?_⟩
  rw [hp]
  rfl

theorem slaScan_dup_resp (pre post : List Ticket) (t : Ticket)
    (rts : List ResponseEntry) (r : ResponseEntry) (hr : r ∈ rts) :
    slaScan (pre ++ [{ t with response_times := some (rts ++ [r]) }] ++ post) =
      slaScan (pre ++ [{ t with response_times := some rts }] ++ post) := by
  unfold slaScan
  rw [List.foldl_append, List.foldl_append, List.foldl_append, List.foldl_append]
  simp only [List.foldl_cons, List.foldl_nil]
  rw [procTicket_dup_resp t rts r hr]

/-- Claim C3: the deduplicating SLA evaluator's violation count is
invariant under re-ingesting a duplicate: appending an already-present
ticket record to the input, or appending to a ticket's response list a
response entry identical to one it already contains (hence with the same
(ticket_id, response_by, raw response_time) triple), leaves the violation
count unchanged, because events sharing the dedup key are collapsed before
counting. -/
theorem claim3_sla_dedup :
    (∀ (tickets : List Ticket) (T : Ticket), T ∈ tickets →
      slaViolationCount (tickets ++ [T]) = slaViolationCount tickets) ∧
    (∀ (pre post : List Ticket) (t : Ticket) (rts : List ResponseEntry) (r : ResponseEntry),
      r ∈ rts →
      slaViolationCount (pre ++ [{ t with response_times := some (rts ++ [r]) }] ++ post) =
        slaViolationCount (pre ++ [{ t with response_times := some rts }] ++ post)) := by
  constructor
  · intro tickets T hT
    unfold slaViolationCount slaEvents
    rw [slaScan_append_self tickets T hT]
  · intro pre post t rts r hr
    unfold slaViolationCount slaEvents
    rw [slaScan_dup_resp pre post t rts r hr]

/-- Witness for claim C3: duplicating the single ticket that carries one
violating response leaves the violation count at 1. -/
theorem claim3_sla_dedup_witness :
    tkSelf ∈ [tkSelf] ∧
    slaViolationCount ([tkSelf] ++ [tkSelf]) = slaViolationCount [tkSelf] ∧
    slaViolationCount [tkSelf] = 1 := by
  refine ⟨List.mem_singleton.mpr rfl, ?_, ?_⟩
  · exact claim3_sla_dedup.1 [tkSelf] tkSelf (List.mem_singleton.mpr rfl)
  · decide

/-- Claim C9: a response entry missing `response_by` or `response_time` is
skipped by the SLA evaluator: removing it from its ticket's response list
changes neither the event list nor the violation count (so it yields no
event and no attribution), and the evaluator is total (no error path). -/
theorem claim9_skip_missing :
    ∀ (pre post : List Ticket) (t : Ticket) (rts1 rts2 : List ResponseEntry)
      (r : ResponseEntry), r.response_by = none ∨ r.response_time = none →
      slaEvents (pre ++ [{ t with response_times := some (rts1 ++ r :: rts2) }] ++ post) =
        slaEvents (pre ++ [{ t with response_times := some (rts1 ++ rts2) }] ++ post) ∧
      slaViolationCount (pre ++ [{ t with response_times := some (rts1 ++ r :: rts2) }] ++ post) =
        slaViolationCount (pre ++ [{ t with response_times := some (rts1 ++ rts2) }] ++ post) := by
  intro pre post t rts1 rts2 r hmiss
  have hqr : respQual r = none := by
    rcases hmiss with h1 | h1
    · unfold respQual
      rw [h1]
      cases r.response_time <;> simp
    · unfold respQual
      rw [h1]
      cases r.response_by <;> simp
  have hresp : ∀ st, procResp t.ticket_id st r = st := by
    intro st
    simp [procResp, hqr]
  have hscan :
      slaScan (pre ++ [{ t with response_times := some (rts1 ++ r :: rts2) }] ++ post) =
        slaScan (pre ++ [{ t with response_times := some (rts1 ++ rts2) }] ++ post) := by
    unfold slaScan
    rw [List.foldl_append, List.foldl_append, List.foldl_append, List.foldl_append]
    simp only [List.foldl_cons, List.foldl_nil]
    congr 1
    simp only [procTicket]
    rw [List.foldl_append, List.foldl_append, List.foldl_cons, hresp]
  constructor
  · unfold slaEvents
    rw [hscan]
  · unfold slaViolationCount slaEvents
    rw [hscan]

/-- Witness for claim C9: dropping an author-less entry from a concrete
two-entry response list leaves events and count unchanged. -/
theorem claim9_skip_missing_witness :
    (respNoBy.response_by = none ∨ respNoBy.response_time = none) ∧
    (slaEvents ([] ++ [{ tkSelf with response_times := some ([respCross] ++ respNoBy :: []) }] ++ []) =
       slaEvents ([] ++ [{ tkSelf with response_times := some ([respCross] ++ []) }] ++ []) ∧
     slaViolationCount ([] ++ [{ tkSelf with response_times := some ([respCross] ++ respNoBy :: []) }] ++ []) =
       slaViolationCount ([] ++ [{ tkSelf with response_times := some ([respCross] ++ []) }] ++ [])) := by
  refine ⟨Or.inl rfl, ?_⟩
  exact claim9_skip_missing [] [] tkSelf [respCross] [] respNoBy (Or.inl rfl)

/-! ## Score Aggregator: claims C1 and C6 -/

theorem lookupA_updateA {α : Type} (k e : String) (f : α → α) :
    ∀ st : List (String × α), lookupA (updateA st k f) e =
      if k = e then (lookupA st e).map f else lookupA st e := by
  intro st
  induction st with
  | nil => by_cases h : k = e <;> simp [updateA, lookupA, h]
  | cons p rest ih =>
    obtain ⟨k1, v⟩ := p
    simp only [updateA, List.map_cons] at ih ⊢
    by_cases h1 : k1 = k
    · rw [if_pos h1]
      by_cases h2 : k1 = e
      · have hke : k = e := h1 ▸ h2
        simp [lookupA, h2, hke]
      · have hke : ¬ k = e := fun h => h2 (h1.trans h)
        simp [lookupA, h2, hke, ih]
    · rw [if_neg h1]
      by_cases h2 : k1 = e
      · have hke : ¬ k = e := fun h => h1 (h2.trans h.symm)
        simp [lookupA, h2, hke]
      · simp [lookupA, h2, ih]

theorem lookupA_append_one {α : Type} (st : List (String × α)) (k e : String) (a : α) :
    lookupA (st ++ [(k, a)]) e =
      match lookupA st e with
      | some v => some v
      | none => if k = e then some a else none := by
  induction st with
  | nil => simp [lookupA]
  | cons p rest ih =>
    by_cases h : p.1 = e <;> simp [lookupA, h, ih]

theorem lookupA_stepStats (st : List (String × EmpAcc)) (t : Ticket) (e : String) :
    lookupA (stepStats st t) e =
      if t.employee = e then
        match lookupA st e with
        | some a => some (empStep a t)
        | none => some (empStep empInit t)
      else lookupA st e := by
  unfold stepStats
  cases hl : lookupA st t.employee with
  | some a =>
    rw [lookupA_updateA]
    by_cases h : t.employee = e
    · rw [if_pos h, if_pos h, ← h, hl]
      rfl
    · rw [if_neg h, if_neg h]
  | none =>
    rw [lookupA_append_one]
    by_cases h : t.employee = e
    · rw [if_pos h]
      rw [h] at hl
      rw [hl]
      simp [h]
    · rw [if_neg h]
      cases hl2 : lookupA st e <;> simp [h]

theorem lookupA_foldStats_some (ts : List Ticket) :
    ∀ (st : List (String × EmpAcc)) (e : String) (a : EmpAcc), lookupA st e = some a →
      lookupA (ts.foldl stepStats st) e =
        some ((ts.filter (fun t => decide (t.employee = e))).foldl empStep a) := by
  induction ts with
  | nil => intro st e a h; simpa using h
  | cons t rest ih =>
    intro st e a h
    rw [List.foldl_cons]
    by_cases he : t.employee = e
    · have h2 : lookupA (stepStats st t) e = some (empStep a t) := by
        rw [lookupA_stepStats, if_pos he, h]
      rw [ih (stepStats st t) e (empStep a t) h2]
      simp [he]
    · have h2 : lookupA (stepStats st t) e = some a := by
        rw [lookupA_stepStats, if_neg he]
        exact h
      rw [ih (stepStats st t) e a h2]
      simp [he]

theorem lookupA_foldStats_empty (ts : List Ticket) :
    ∀ (st : List (String × EmpAcc)) (e : String), lookupA st e = none →
      ts.filter (fun t => decide (t.employee = e)) = [] →
      lookupA (ts.foldl stepStats st) e = none := by
  induction ts with
  | nil => intro st e h _; simpa using h
  | cons t rest ih =>
    intro st e h hemp
    rw [List.foldl_cons]
    by_cases he : t.employee = e
    · exfalso
      rw [List.filter_cons_of_pos (by simpa using he)] at hemp
      cases hemp
    · rw [List.filter_cons_of_neg (by simpa using he)] at hemp
      have h2 : lookupA (stepStats st t) e = none := by
        rw [lookupA_stepStats, if_neg he]
        exact h
      exact ih (stepStats st t) e h2 hemp

theorem lookupA_foldStats_nonempty (ts : List Ticket) :
    ∀ (st : List (String × EmpAcc)) (e : String), lookupA st e = none →
      ts.filter (fun t => decide (t.employee = e)) ≠ [] →
      lookupA (ts.foldl stepStats st) e =
        some ((ts.filter (fun t => decide (t.employee = e))).foldl empStep empInit) := by
  induction ts with
  | nil => intro st e _ hne; exact absurd rfl hne
  | cons t rest ih =>
    intro st e h hne
    rw [List.foldl_cons]
    by_cases he : t.employee = e
    · have h2 : lookupA (stepStats st t) e = some (empStep empInit t) := by
        rw [lookupA_stepStats, if_pos he, h]
      rw [lookupA_foldStats_some rest (stepStats st t) e (empStep empInit t) h2]
      simp [he]
    · rw [List.filter_cons_of_neg (by simpa using he)] at hne ⊢
      have h2 : lookupA (stepStats st t) e = none := by
        rw [lookupA_stepStats, if_neg he]
        exact h
      exact ih (stepStats st t) e h2 hne

theorem critStep_fold (rs : List RawScore) :
    ∀ (a : CritAcc) (vs : List ℚ), a.cnt = vs.length → a.sum = vs.sum → a.avg = meanOr0 vs →
      (rs.foldl critStep a).cnt = (vs ++ validVals rs).length ∧
      (rs.foldl critStep a).sum = (vs ++ validVals rs).sum ∧
      (rs.foldl critStep a).avg = meanOr0 (vs ++ validVals rs) := by
  induction rs with
  | nil =>
    intro a vs h1 h2 h3
    simp [validVals, h1, h2, h3]
  | cons r rest ih =>
    intro a vs h1 h2 h3
    rw [List.foldl_cons]
    cases hc : coerceScore r with
    | none =>
      have hv : validVals (r :: rest) = validVals rest := by
        simp [validVals, List.filterMap_cons, hc]
      have hstep : critStep a r = a := by unfold critStep; rw [hc]
      rw [hv, hstep]
      exact ih a vs h1 h2 h3
    | some q =>
      by_cases hq : 0 < q
      · have hv : validVals (r :: rest) = q :: validVals rest := by
          simp [validVals, List.filterMap_cons, hc, hq]
        have hstep : critStep a r =
            ⟨a.cnt + 1, a.sum + q, (a.sum + q) / ((a.cnt + 1 : Nat) : ℚ)⟩ := by
          unfold critStep
          rw [hc]
          simp [hq]
        have hne : vs ++ [q] ≠ [] := by simp
        have havg : (⟨a.cnt + 1, a.sum + q,
            (a.sum + q) / ((a.cnt + 1 : Nat) : ℚ)⟩ : CritAcc).avg = meanOr0 (vs ++ [q]) := by
          rw [meanOr0, if_neg hne]
          simp [h1, h2]
        have ih2 := ih ⟨a.cnt + 1, a.sum + q, (a.sum + q) / ((a.cnt + 1 : Nat) : ℚ)⟩
          (vs ++ [q]) (by simp [h1]) (by simp [h2]) havg
        rw [List.append_assoc] at ih2
        simp only [List.singleton_append] at ih2
        rw [hv, hstep]
        exact ih2
      · have hv : validVals (r :: rest) = validVals rest := by
          simp [validVals, List.filterMap_cons, hc, hq]
        have hstep : critStep a r = a := by
          unfold critStep
          rw [hc]
          simp [hq]
        rw [hv, hstep]
        exact ih a vs h1 h2 h3

theorem empFold_scores (ts : List Ticket) :
    ∀ (a : EmpAcc) (c : Criterion),
      ((ts.foldl empStep a).scores c) =
        (ts.map (fun t => t.scores c)).foldl critStep (a.scores c) := by
  induction ts with
  | nil => intro a c; rfl
  | cons t rest ih =>
    intro a c
    rw [List.foldl_cons, List.map_cons, List.foldl_cons, ih]
    rfl

theorem empFold_sla (ts : List Ticket) :
    ∀ a : EmpAcc, (ts.foldl empStep a).sla_violations = a.sla_violations := by
  induction ts with
  | nil => intro a; rfl
  | cons t rest ih =>
    intro a
    rw [List.foldl_cons, ih]
    rfl

theorem lookupA_bumpFold (vs : List SLAViolationRec) :
    ∀ (st : List (String × EmpAcc)) (e : String),
      lookupA (vs.foldl bumpViolation st) e =
        (lookupA st e).map (fun a =>
          { a with sla_violations := a.sla_violations +
              vs.countP (fun v => decide (jsKeyOf v.employee = e)) }) := by
  induction vs with
  | nil =>
    intro st e
    simp only [List.foldl_nil, List.countP_nil]
    cases lookupA st e <;> rfl
  | cons v rest ih =>
    intro st e
    rw [List.foldl_cons, ih]
    unfold bumpViolation
    cases hl : lookupA st (jsKeyOf v.employee) with
    | none =>
      by_cases he : jsKeyOf v.employee = e
      · rw [← he, hl]
        simp
      · cases hle : lookupA st e <;> simp [List.countP_cons, he]
    | some b =>
      rw [lookupA_updateA]
      by_cases he : jsKeyOf v.employee = e
      · rw [if_pos he, ← he, hl]
        simp [List.countP_cons, he]
        omega
      · rw [if_neg he]
        cases hle : lookupA st e <;> simp [List.countP_cons, he]


theorem validObs_eq (ts : List Ticket) (c : Criterion) :
    validObs ts c = validVals (ts.map (fun t => t.scores c)) := by
  unfold validObs validVals
  rw [List.filterMap_map]
  rfl

theorem statsFor_empty (tickets : List Ticket) (allowed : List String) (e : String)
    (h0 : ticketsOf tickets allowed e = []) : statsFor tickets allowed e = none := by
  unfold statsFor calculateEmployeeStats
  rw [lookupA_bumpFold]
  rw [lookupA_foldStats_empty _ [] e rfl h0]
  rfl

theorem statsFor_nonempty (tickets : List Ticket) (allowed : List String) (e : String)
    (h0 : ticketsOf tickets allowed e ≠ []) :
    statsFor tickets allowed e =
      some { (ticketsOf tickets allowed e).foldl empStep empInit with
             sla_violations :=
               ((ticketsOf tickets allowed e).foldl empStep empInit).sla_violations +
                 (calculateSLAViolations
                     (tickets.filter (fun t => allowed.contains t.employee))).countP
                   (fun v => decide (jsKeyOf v.employee = e)) } := by
  unfold statsFor calculateEmployeeStats
  rw [lookupA_bumpFold]
  rw [lookupA_foldStats_nonempty _ [] e rfl h0]
  rfl

theorem avgScoreOf_spec (tickets : List Ticket) (allowed : List String) (e : String)
    (c : Criterion) :
    avgScoreOf tickets allowed e c = meanOr0 (validObs (ticketsOf tickets allowed e) c) := by
  unfold avgScoreOf
  by_cases h0 : ticketsOf tickets allowed e = []
  · rw [statsFor_empty _ _ _ h0, h0]
    simp [validObs, meanOr0]
  · rw [statsFor_nonempty _ _ _ h0]
    show (((ticketsOf tickets allowed e).foldl empStep empInit).scores c).avg = _
    rw [empFold_scores]
    have hinit : empInit.scores c = critInit := rfl
    rw [hinit]
    have hcf := critStep_fold ((ticketsOf tickets allowed e).map (fun t => t.scores c))
      critInit [] rfl rfl rfl
    rw [validObs_eq, hcf.2.2]
    simp

theorem slaCountOf_empty (tickets : List Ticket) (allowed : List String) (e : String)
    (h0 : ticketsOf tickets allowed e = []) : slaCountOf tickets allowed e = 0 := by
  unfold slaCountOf
  rw [statsFor_empty _ _ _ h0]

theorem slaCountOf_nonempty (tickets : List Ticket) (allowed : List String) (e : String)
    (h0 : ticketsOf tickets allowed e ≠ []) :
    slaCountOf tickets allowed e =
      (calculateSLAViolations (tickets.filter (fun t => allowed.contains t.employee))).countP
        (fun v => decide (jsKeyOf v.employee = e)) := by
  unfold slaCountOf
  rw [statsFor_nonempty _ _ _ h0]
  show ((ticketsOf tickets allowed e).foldl empStep empInit).sla_violations + _ = _
  rw [empFold_sla]
  simp [empInit]

/-- Claim C1: for every interaction list, allow-list, employee and
criterion, the published `avg_scores` value is the arithmetic mean of that
criterion's valid observations (numeric after string coercion and strictly
positive) over the employee's retained interactions, and 0 when there are
none; in particular tone_and_trust observations 0 and 8 average to 8, not
4. -/
theorem claim1_avg_scores :
    (∀ (tickets : List Ticket) (allowed : List String) (e : String) (c : Criterion),
      avgScoreOf tickets allowed e c = meanOr0 (validObs (ticketsOf tickets allowed e) c)) ∧
    avgScoreOf [tkTone0, tkTone8] exAllowed "Nithin V P" Criterion.tone_and_trust = 8 := by
  constructor
  · exact avgScoreOf_spec
  · rw [avgScoreOf_spec]
    norm_num [ticketsOf, exAllowed, tkTone0, tkTone8, List.filter, validObs, meanOr0,
      List.filterMap_cons, scoresTone, coerceScore]


theorem ticketsOf_filter_self (tickets : List Ticket) (allowed : List String) (e : String) :
    ticketsOf (tickets.filter (fun t => decide (t.employee = e))) allowed e =
      ticketsOf tickets allowed e := by
  unfold ticketsOf
  rw [List.filter_filter, List.filter_filter, List.filter_filter]
  apply List.filter_congr
  intro t _
  by_cases h1 : t.employee = e <;>
    cases h2 : allowed.contains t.employee <;> simp [h1, h2]

theorem countP_flatMap {α β : Type} (l : List α) (f : α → List β) (p : β → Bool) :
    (l.flatMap f).countP p = (l.map (fun x => (f x).countP p)).sum := by
  induction l with
  | nil => rfl
  | cons x rest ih =>
    rw [List.flatMap_cons, List.countP_append, List.map_cons, List.sum_cons, ih]

theorem sum_map_filter_of_zero {α : Type} (g : α → Nat) (p : α → Bool) :
    ∀ l : List α, (∀ x ∈ l, p x = false → g x = 0) →
      (l.map g).sum = ((l.filter p).map g).sum := by
  intro l
  induction l with
  | nil => intro _; rfl
  | cons x rest ih =>
    intro h
    have hrest : ∀ y ∈ rest, p y = false → g y = 0 := fun y hy => h y (List.mem_cons_of_mem x hy)
    cases hp : p x with
    | true =>
      rw [List.filter_cons_of_pos hp, List.map_cons, List.map_cons, List.sum_cons,
        List.sum_cons, ih hrest]
    | false =>
      rw [List.filter_cons_of_neg (by simp [hp]), List.map_cons, List.sum_cons,
        h x (List.mem_cons_self x rest) hp, ih hrest]
      simp

/-- Claim C6 (counterexample): Nithin's violating response sits on Sajni's
ticket; the full-list aggregation charges it to Nithin (sla_violations =
1), but re-deriving Nithin's stats from only the tickets whose `employee`
field is "Nithin V P" finds no violation (sla_violations = 0), so the
round-trip claim fails. -/
theorem claim6_counterexample :
    slaCountOf [tkCross, tkOwn] exAllowed "Nithin V P" = 1 ∧
    slaCountOf ([tkCross, tkOwn].filter (fun t => decide (t.employee = "Nithin V P")))
      exAllowed "Nithin V P" = 0 := by
  constructor
  · decide
  · decide

/-- Claim C6 (amended): the per-employee fetch round-trip holds for
`avg_scores` unconditionally; it holds for `sla_violations` under the extra
assumption that no retained ticket of ANOTHER employee carries an SLA
violation attributed (via `response_by`) to the employee in question - in
general the full-list count also charges violations the employee committed
on colleagues' tickets, which the per-employee fetch cannot see. -/
theorem claim6_round_trip :
    (∀ (tickets : List Ticket) (allowed : List String) (e : String) (c : Criterion),
      avgScoreOf (tickets.filter (fun t => decide (t.employee = e))) allowed e c =
        avgScoreOf tickets allowed e c) ∧
    (∀ (tickets : List Ticket) (allowed : List String) (e : String),
      (∀ t ∈ tickets, allowed.contains t.employee = true → t.employee ≠ e →
        (slaOfTicket t).countP (fun v => decide (jsKeyOf v.employee = e)) = 0) →
      slaCountOf (tickets.filter (fun t => decide (t.employee = e))) allowed e =
        slaCountOf tickets allowed e) := by
  constructor
  · intro tickets allowed e c
    rw [avgScoreOf_spec, avgScoreOf_spec, ticketsOf_filter_self]
  · intro tickets allowed e hcross
    by_cases h0 : ticketsOf tickets allowed e = []
    · rw [slaCountOf_empty _ _ _ h0, slaCountOf_empty]
      rw [ticketsOf_filter_self]
      exact h0
    · rw [slaCountOf_nonempty _ _ _ (by rwa [ticketsOf_filter_self]),
        slaCountOf_nonempty _ _ _ h0]
      unfold calculateSLAViolations
      rw [countP_flatMap, countP_flatMap]
      have hz : ∀ t ∈ tickets.filter (fun t => allowed.contains t.employee),
          (decide (t.employee = e)) = false →
          (slaOfTicket t).countP (fun v => decide (jsKeyOf v.employee = e)) = 0 := by
        intro t ht hpe
        have hm := List.mem_filter.mp ht
        exact hcross t hm.1 hm.2 (by simpa using hpe)
      rw [sum_map_filter_of_zero _ _ _ hz]
      congr 1
      rw [List.filter_filter, List.filter_filter]
      congr 1
      apply List.filter_congr
      intro t _
      by_cases h1 : t.employee = e <;>
        cases h2 : allowed.contains t.employee <;> simp [h1, h2]

/-- Witness for claim C6: a ticket whose violating response is the
employee's own satisfies the cross-ticket assumption, and both counts are
1. -/
theorem claim6_round_trip_witness :
    slaCountOf [tkSelf] exAllowed "Nithin V P" = 1 ∧
    slaCountOf ([tkSelf].filter (fun t => decide (t.employee = "Nithin V P")))
        exAllowed "Nithin V P" =
      slaCountOf [tkSelf] exAllowed "Nithin V P" := by
  constructor
  · decide
  · apply claim6_round_trip.2 [tkSelf] exAllowed "Nithin V P"
    intro t ht h1 h2
    exfalso
    apply h2
    rw [List.mem_singleton] at ht
    rw [ht]
    rfl

/-! ## Weekly rollup: claims C7, C8 and C10 -/

/-- Claim C7: for a Sunday-aligned midnight week start, slot `d` of the
daily breakdown holds exactly the bucket interactions whose `created_date`
falls on the calendar day `weekStart + d` (no cross-week leakage), and the
per-slot unique-ticket count and positive-score mean are computed over
exactly those interactions. -/
theorem claim7_daily_grouping :
    ∀ (tickets : List Ticket) (w d : Int), w % msPerDay = 0 → jsGetDay w = 0 →
      0 ≤ d → d < 7 →
      (slotTickets (weekTickets tickets w) d =
        (weekTickets tickets w).filter
          (fun t => decide (jsDayNumber t.created_date = jsDayNumber w + d))) ∧
      dailyTicketCount (weekTickets tickets w) d =
        (((weekTickets tickets w).filter
            (fun t => decide (jsDayNumber t.created_date = jsDayNumber w + d))).map
          (fun t => t.ticket_id)).dedup.length ∧
      dailyScoreAvg (weekTickets tickets w) d =
        meanOr0 ((((weekTickets tickets w).filter
            (fun t => decide (jsDayNumber t.created_date = jsDayNumber w + d))).map
          overallScoreOfTicket).filter (fun q => decide (0 < q))) := by
  intro tickets w d hw hs hd0 hd7
  have hmain : slotTickets (weekTickets tickets w) d =
      (weekTickets tickets w).filter
        (fun t => decide (jsDayNumber t.created_date = jsDayNumber w + d)) := by
    unfold slotTickets
    apply List.filter_congr
    intro t ht
    have hmem := List.mem_filter.mp ht
    have hb : w ≤ t.created_date ∧ t.created_date ≤ w + 6 * msPerDay := by
      have h2 := hmem.2
      simp [inWeek, weekEndOf] at h2
      exact h2
    rw [decide_eq_decide]
    obtain ⟨hb1, hb2⟩ := hb
    simp only [jsGetDay, jsDayNumber, msPerDay] at hw hs hb1 hb2 ⊢
    omega
  refine ⟨hmain, ?_, ?_⟩
  · unfold dailyTicketCount
    rw [hmain]
  · unfold dailyScoreAvg
    rw [hmain]

/-- Witness for claim C7: the concrete Sunday-aligned week of 1970-01-04
with one Monday interaction, at slot d = 1. -/
theorem claim7_daily_grouping_witness :
    wSun % msPerDay = 0 ∧ jsGetDay wSun = 0 ∧ (0 : Int) ≤ 1 ∧ (1 : Int) < 7 ∧
    ((slotTickets (weekTickets [tkMon] wSun) 1 =
        (weekTickets [tkMon] wSun).filter
          (fun t => decide (jsDayNumber t.created_date = jsDayNumber wSun + 1))) ∧
      dailyTicketCount (weekTickets [tkMon] wSun) 1 =
        (((weekTickets [tkMon] wSun).filter
            (fun t => decide (jsDayNumber t.created_date = jsDayNumber wSun + 1))).map
          (fun t => t.ticket_id)).dedup.length ∧
      dailyScoreAvg (weekTickets [tkMon] wSun) 1 =
        meanOr0 ((((weekTickets [tkMon] wSun).filter
            (fun t => decide (jsDayNumber t.created_date = jsDayNumber wSun + 1))).map
          overallScoreOfTicket).filter (fun q => decide (0 < q)))) := by
  refine ⟨by decide, by decide, by decide, by decide, ?_⟩
  exact claim7_daily_grouping [tkMon] wSun 1 (by decide) (by decide) (by decide) (by decide)

theorem wkStep_length (st : List (String × WkAcc)) (t : Ticket) :
    st.length ≤ (wkStep st t).length := by
  unfold wkStep
  cases hl : lookupA st t.employee with
  | some a =>
    by_cases hsc : 0 < overallScoreOfTicket t
    · simp [hsc, updateA]
    · simp [hsc]
  | none =>
    by_cases hsc : 0 < overallScoreOfTicket t
    · simp [hsc, updateA]
    · simp [hsc]

theorem foldl_wkStep_length (ts : List Ticket) :
    ∀ st : List (String × WkAcc), st.length ≤ (ts.foldl wkStep st).length := by
  induction ts with
  | nil => intro st; exact Nat.le_refl _
  | cons t rest ih =>
    intro st
    rw [List.foldl_cons]
    exact Nat.le_trans (wkStep_length st t) (ih (wkStep st t))

theorem weekEmployeeStats_ne_nil (wts : List Ticket) (h : wts ≠ []) :
    weekEmployeeStats wts ≠ [] := by
  cases wts with
  | nil => exact absurd rfl h
  | cons t rest =>
    unfold weekEmployeeStats
    rw [List.foldl_cons]
    have h1 : 1 ≤ (wkStep [] t).length := by
      unfold wkStep
      by_cases hsc : 0 < overallScoreOfTicket t <;> simp [lookupA, hsc, updateA]
    have h2 := foldl_wkStep_length rest (wkStep [] t)
    intro hnil
    rw [hnil, List.length_nil] at h2
    omega

/-- The `employeeDetails` map throws its ReferenceError whenever
`weekEmployeeStats` has an entry, i.e. for every non-empty bucket. -/
theorem employeeDetailsRes_error (wts : List Ticket) (h : wts ≠ []) :
    employeeDetailsRes wts = Except.error () := by
  unfold employeeDetailsRes
  have hne := weekEmployeeStats_ne_nil wts h
  cases hw : weekEmployeeStats wts with
  | nil => exact absurd hw hne
  | cons a l => rfl

theorem weeklyData_error (tickets : List Ticket) (w : Int)
    (h : weekTickets tickets w ≠ []) : weeklyData tickets w = Except.error () := by
  have hne : (weekTickets tickets w).isEmpty = false := by
    cases hw : weekTickets tickets w with
    | nil => exact absurd hw h
    | cons a l => rfl
  simp only [weeklyData, hne, Bool.false_eq_true, if_false]
  rw [employeeDetailsRes_error _ h]

/-- Claim C8: evaluating `WeeklyReport.weeklyData` on a bucket that
contains one interaction does not produce the per-employee detail rows the
spec describes - the computation aborts because the `employeeDetails`
callback reads the undefined identifier `allInteractions`
(WeeklyReport.tsx line 237), which throws a ReferenceError for every
non-empty bucket. -/
theorem claim8_reference_error : weeklyData [tkMon] wSun = Except.error () := by
  apply weeklyData_error
  have h1 : inWeek wSun tkMon.created_date = true := by decide
  have h2 : weekTickets [tkMon] wSun = [tkMon] := by
    simp [weekTickets, List.filter_cons, h1]
  rw [h2]
  intro hc
  cases hc

/-- Claim C10: a requested week whose bucket is empty yields the well-formed
all-zero bucket - every count 0, average 0, empty performer and detail
lists, and two 7-element all-zero daily arrays - with no error. -/
theorem claim10_empty_bucket :
    ∀ (tickets : List Ticket) (w : Int), weekTickets tickets w = [] →
      weeklyData tickets w = Except.ok (zeroWeeklyData w) ∧
      (zeroWeeklyData w).totalTickets = 0 ∧
      (zeroWeeklyData w).uniqueTickets = 0 ∧
      (zeroWeeklyData w).avgScore = 0 ∧
      (zeroWeeklyData w).slaViolations = 0 ∧
      (zeroWeeklyData w).sentimentDistribution = sentInit ∧
      (zeroWeeklyData w).topPerformers = [] ∧
      (zeroWeeklyData w).employeeDetails = [] ∧
      (zeroWeeklyData w).dailyTickets = List.replicate 7 0 ∧
      (zeroWeeklyData w).dailyScores = List.replicate 7 0 := by
  intro tickets w h
  have hemp : (weekTickets tickets w).isEmpty = true := by rw [h]; rfl
  refine ⟨?_, rfl, rfl, rfl, rfl, rfl, rfl, rfl, rfl, rfl⟩
  simp only [weeklyData, hemp, if_true]

/-- Witness for claim C10: the empty interaction list and week start 0. -/
theorem claim10_empty_bucket_witness :
    weekTickets [] 0 = [] ∧ weeklyData [] 0 = Except.ok (zeroWeeklyData 0) := by
  refine ⟨rfl, ?_⟩
  exact (claim10_empty_bucket [] 0 rfl).1

end QADash
